import Mathlib

/-
Verification development for the BNN Bayesian-ensemble model (Models/BNN.py).

The code is shallowly embedded: tensors of the ranks the model manipulates are
lists of rationals, the mutable module state is an explicit record, in-place
tensor writes are explicit folds of single-cell writes, and the stochastic
weight draw of each forward pass is abstracted as a function from a model index
to a per-row affine map.  The external collaborators that the repository uses
but does not define under Models/BNN.py (the ensemble Bayesian linear layer,
the blitz KL aggregation, the torch reductions) are modelled from the
contracts the specification states for them; each such definition carries a
doc comment starting with "Modelled from the spec:".
-/

namespace BNNModel

/-- Modelled from the spec: the per-layer state of an Ensemble Linear (Bayesian)
layer, the collaborator defined in Models/utils.py which is not part of the
sources at hand.  Section 4.1 of the spec gives its contract: it records an
elite index list, an internal use_only_elite flag, and (section 4.4) a freeze
flag on each contained Bayesian module. -/
structure LayerState where
  elite : Option (List Nat)
  use_only_elite : Bool
  freeze : Bool
  deriving DecidableEq

/-- State of the BNN ensemble (Models/BNN.py, class BNN): the construction
parameters and mutable fields the claims are about. -/
structure BNNState where
  in_size : Nat
  out_size : Nat
  num_members : Nat
  propagation_method : Option String
  freeze : Bool
  elite_models : Option (List Nat)
  hidden_layers : List LayerState
  output_layer : LayerState
  deriving DecidableEq

/-- A torch tensor of the ranks the model manipulates: a 0-dim scalar, a rank-2
(batch, features) tensor as a list of rows, or a rank-3 (model, batch, features)
tensor as a list of per-model row lists. -/
inductive Tens where
  | r0 (v : ℚ)
  | r2 (rows : List (List ℚ))
  | r3 (cube : List (List (List ℚ)))
  deriving DecidableEq

/-- tensor.ndim -/
def Tens.ndim : Tens → Nat
  | .r0 _ => 0
  | .r2 _ => 2
  | .r3 _ => 3

/-- All elements of a tensor, row-major. -/
def Tens.elems : Tens → List ℚ
  | .r0 v => [v]
  | .r2 m => m.flatten
  | .r3 c => (c.map (fun m => m.flatten)).flatten

/-- Modelled from the spec: torch tensor.mean() with no dim argument reduces
over all elements; on a 0-dim tensor this is the single element itself. -/
def Tens.mean (t : Tens) : ℚ := t.elems.sum / (t.elems.length : ℚ)

/-- Extract the rank-3 payload (the forward passes below always produce rank 3). -/
def Tens.as3 : Tens → List (List (List ℚ))
  | .r3 c => c
  | _ => []

/-- tensor[0] on a rank-3 tensor (the num_members == 1 squeeze in
_forward_ensemble). -/
def Tens.first : Tens → Tens
  | .r3 c => .r2 (c.headD [])
  | t => t

/-- Modelled from the spec: EnsembleLinearBayesian.set_elite records the elite
index list on the layer (section 4.1). -/
def LayerState.set_elite (l : LayerState) (idx : List Nat) : LayerState :=
  { l with elite := some idx }

/-- Modelled from the spec: toggle_use_only_elite flips the internal
use_only_elite flag (section 4.1). -/
def LayerState.toggle_use_only_elite (l : LayerState) : LayerState :=
  { l with use_only_elite := !l.use_only_elite }

/-- BNN._maybe_toggle_layers_use_only_elite (BNN.py lines 83-92): when
elite_models is set and the ensemble has more than one member and only_elite is
requested, every hidden layer and the output layer receive the elite list and
have their use_only_elite flag toggled; otherwise nothing happens. -/
def maybe_toggle_layers_use_only_elite (s : BNNState) (only_elite : Bool) : BNNState :=
  match s.elite_models with
  | none => s
  | some es =>
    if 1 < s.num_members ∧ only_elite then
      { s with
        hidden_layers := s.hidden_layers.map
          (fun l => (l.set_elite es).toggle_use_only_elite),
        output_layer := (s.output_layer.set_elite es).toggle_use_only_elite }
    else s

/-- Modelled from the spec: the model indices the stacked layers compute with.
With the use_only_elite flag on, the layers index only the recorded elite list;
otherwise they use all num_members models (section 4.1). -/
def activeModels (s : BNNState) : List Nat :=
  if s.output_layer.use_only_elite then (s.output_layer.elite).getD []
  else List.range s.num_members

/-- Modelled from the spec: one pass through the stacked hidden layers and the
output layer of the collaborator layers (section 4.1): the model-th unit is
applied to the model-th slice of a rank-3 batch, and a rank-2 batch or a rank-3
batch with leading dimension 1 is broadcast to every active model.  The
argument f abstracts the whole affine stack of model m under its current
weight draw as a map on rows. -/
def stack_forward (active : List Nat) (f : Nat → List ℚ → List ℚ) : Tens → Tens
  | .r2 x => .r3 (active.map (fun m => x.map (f m)))
  | .r3 c =>
    if c.length = 1 then .r3 (active.map (fun m => (c.headD []).map (f m)))
    else .r3 ((active.zip c).map (fun p => p.2.map (f p.1)))
  | .r0 v => .r0 v

/-- BNN._default_forward (BNN.py lines 94-104): toggle, run the layer stack,
toggle again, and return the (possibly updated) state with the output. -/
def default_forward (s : BNNState) (f : Nat → List ℚ → List ℚ) (x : Tens)
    (only_elite : Bool) : BNNState × Tens :=
  let s1 := maybe_toggle_layers_use_only_elite s only_elite
  let out := stack_forward (activeModels s1) f x
  let s2 := maybe_toggle_layers_use_only_elite s1 only_elite
  (s2, out)

/-- The active model count: len(elite_models) if elites are set, else
len(self) = num_members (BNN.py lines 111-113 and 137-139). -/
def model_len (s : BNNState) : Nat :=
  match s.elite_models with
  | some es => es.length
  | none => s.num_members

/-- Row-major torch view of a flat list of rows as an (m, per, features)
tensor, assuming the rows have uniform length: slice i, row j is flat row
i * per + j. -/
def view3 (m per : Nat) (rows : List (List ℚ)) : List (List (List ℚ)) :=
  (List.range m).map (fun i => (List.range per).map (fun j => rows.getD (i * per + j) []))

/-- Row-major torch view of an (m, per, features) tensor back to a flat
(batch, features) tensor, assuming uniform row length: flat row i is slice
i / per, row i % per. -/
def view2 (batch per : Nat) (cube : List (List (List ℚ))) : List (List ℚ) :=
  (List.range batch).map (fun i => (cube.getD (i / per) []).getD (i % per) [])

/-- In-place integer-array index assignment target[ps] = vs, as the fold of the
single-cell writes it performs: the i-th write stores vs[i] at position ps[i]. -/
def scatter_assign {α : Type} (ps : List Nat) (vs : List α) (init : List α) : List α :=
  (ps.zip vs).foldl (fun acc pv => acc.set pv.1 pv.2) init

/-- BNN._forward_from_indices (BNN.py lines 106-123): shuffle the batch by the
given indices, view it as (num_models, batch_size / num_models, features), run
the elite-restricted default forward, view the prediction back to
(batch_size, features), and undo the shuffle by the in-place assignment
pred[model_shuffle_indices] = pred.clone(). -/
def forward_from_indices (s : BNNState) (f : Nat → List ℚ → List ℚ)
    (rows : List (List ℚ)) (model_shuffle_indices : List Nat) :
    BNNState × List (List ℚ) :=
  let batch_size := rows.length
  let num_models := model_len s
  let shuffled_x := model_shuffle_indices.map (fun p => rows.getD p [])
  let r := default_forward s f
    (.r3 (view3 num_models (batch_size / num_models) shuffled_x)) true
  let pred := view2 batch_size (batch_size / num_models) r.2.as3
  (r.1, scatter_assign model_shuffle_indices pred pred)

/-- Modelled from the spec: torch tensor.mean(dim=0) on a rank-3
(model, batch, features) tensor averages the slices elementwise. -/
def mean_dim0 : Tens → Tens
  | .r3 c =>
    .r2 ((List.range (c.headD []).length).map (fun j =>
      (List.range ((c.headD []).getD j []).length).map (fun d =>
        (c.map (fun sl => (sl.getD j []).getD d 0)).sum / (c.length : ℚ))))
  | t => t

def batch_multiple_msg : String :=
  "GaussianMLP ensemble requires batch size to be a multiple of the number of models."

def fixed_model_msg : String :=
  "When using propagation fixed_model, propagation_indices must be provided."

def invalid_propagation_msg : String := "Invalid propagation method."

def rank2_assert_msg : String := "assert failed: x.ndim == 2"

/-- BNN._forward_ensemble (BNN.py lines 125-162).  The randomness of
torch.randperm is externalised: the permutation random_model would draw is the
randperm argument.  Exceptions are modelled by Except; the returned state is
the state at the point of return or raise. -/
def forward_ensemble (s : BNNState) (f : Nat → List ℚ → List ℚ) (x : Tens)
    (propagation_indices : Option (List Nat)) (randperm : List Nat) :
    BNNState × Except String Tens :=
  match s.propagation_method with
  | none =>
    let r := default_forward s f x false
    if s.num_members = 1 then (r.1, .ok r.2.first) else (r.1, .ok r.2)
  | some pm =>
    match x with
    | .r2 rows =>
      if rows.length % model_len s ≠ 0 then (s, .error batch_multiple_msg)
      else if pm = "random_model" then
        let r := forward_from_indices s f rows randperm
        (r.1, .ok (.r2 r.2))
      else if pm = "fixed_model" then
        match propagation_indices with
        | none => (s, .error fixed_model_msg)
        | some idx =>
          let r := forward_from_indices s f rows idx
          (r.1, .ok (.r2 r.2))
      else if pm = "expectation" then
        let r := default_forward s f (.r3 [rows]) true
        (r.1, .ok (mean_dim0 r.2))
      else (s, .error invalid_propagation_msg)
    | _ => (s, .error rank2_assert_msg)

/-- BNN.forward (BNN.py lines 164-178). -/
def forwardBNN (s : BNNState) (f : Nat → List ℚ → List ℚ) (x : Tens)
    (propagation_indices : Option (List Nat)) (randperm : List Nat)
    (use_propagation : Bool) : BNNState × Except String Tens :=
  if use_propagation then forward_ensemble s f x propagation_indices randperm
  else
    let r := default_forward s f x false
    (r.1, .ok r.2)

def sq (q : ℚ) : ℚ := q * q

/-- Modelled from the spec: F.mse_loss with reduction none on rank-2 tensors is
the elementwise squared difference. -/
def mse_none2 (a b : List (List ℚ)) : List (List ℚ) :=
  List.zipWith (fun ra rb => List.zipWith (fun u v => sq (u - v)) ra rb) a b

/-- Modelled from the spec: F.mse_loss with reduction none on rank-3 tensors is
the elementwise squared difference. -/
def mse_none3 (a b : List (List (List ℚ))) : List (List (List ℚ)) :=
  List.zipWith mse_none2 a b

/-- tensor.sum((1, 2)) on a rank-3 (model, batch, features) tensor: one sum per
model slice. -/
def sum_dims12 (c : List (List (List ℚ))) : List ℚ :=
  c.map (fun m => (m.map List.sum).sum)

/-- BNN._mse_loss (BNN.py lines 180-184) on a rank-2 input and target: the
disabled-propagation forward output (rank 3) is compared against the target
broadcast along the model axis, elementwise squared, summed over dims (1, 2)
and then summed. -/
def mse_loss (s : BNNState) (f : Nat → List ℚ → List ℚ)
    (model_in target : List (List ℚ)) : ℚ :=
  let pred := (default_forward s f (.r2 model_in) false).2.as3
  (sum_dims12 (mse_none3 pred (List.replicate pred.length target))).sum

/-- Modelled from the spec: blitz kl_divergence_from_nn sums the per-unit KL
divergence of every Bayesian module of the network into a single 0-dim scalar
tensor (section 4.3).  The list argument holds the per-unit KL values. -/
def kl_divergence_from_nn (unit_kls : List ℚ) : Tens := .r0 unit_kls.sum

/-- BNN.nn_kl_divergence (BNN.py lines 214-222): delegates to
kl_divergence_from_nn on the whole network. -/
def nn_kl_divergence (unit_kls : List ℚ) : Tens := kl_divergence_from_nn unit_kls

/-- The complexity contribution of one Monte-Carlo iteration of sample_elbo
(BNN.py line 248): self.nn_kl_divergence().mean() * complexity_cost_weight. -/
def complexity_term (unit_kls : List ℚ) (complexity_cost_weight : ℚ) : ℚ :=
  (nn_kl_divergence unit_kls).mean * complexity_cost_weight

/-- BNN.sample_elbo (BNN.py lines 224-249): starting from 0, each of the
sample_nbr iterations adds the mse loss of a fresh stochastic forward pass
(iteration k draws the weights fseq k) and the weighted KL term (iteration k
has per-unit KL values klseq k); the accumulated value is divided by
sample_nbr. -/
def sample_elbo (s : BNNState) (fseq : Nat → Nat → List ℚ → List ℚ)
    (klseq : Nat → List ℚ) (inputs labels : List (List ℚ))
    (sample_nbr : Nat) (complexity_cost_weight : ℚ) : ℚ :=
  ((List.range sample_nbr).foldl
    (fun acc k =>
      acc + mse_loss s (fseq k) inputs labels
          + complexity_term (klseq k) complexity_cost_weight)
    0) / (sample_nbr : ℚ)

/-- BNN.freeze_model (BNN.py lines 291-299): sets freeze on the ensemble and,
modelled from the spec (section 4.4, the module scan), the freeze flag of every
Bayesian module contained in the layers. -/
def freeze_model (s : BNNState) : BNNState :=
  { s with
    freeze := true,
    hidden_layers := s.hidden_layers.map (fun l => { l with freeze := true }),
    output_layer := { s.output_layer with freeze := true } }

/-- BNN.loss (BNN.py lines 186-212): when frozen, re-invoke freeze_model and
return the mse loss of the (frozen) model; otherwise return sample_elbo with
its default arguments sample_nbr = 100 and complexity_cost_weight = 1.  The
returned state is the model state after the call. -/
def lossBNN (s : BNNState) (fseq : Nat → Nat → List ℚ → List ℚ)
    (klseq : Nat → List ℚ) (model_in target : List (List ℚ)) : ℚ × BNNState :=
  if s.freeze then
    let s1 := freeze_model s
    (mse_loss s1 (fseq 0) model_in target, s1)
  else
    (sample_elbo s fseq klseq model_in target 100 1, s)

/-- BNN.set_elite (BNN.py lines 287-289). -/
def set_elite (s : BNNState) (elite_indices : List Nat) : BNNState :=
  if elite_indices.length ≠ s.num_members then
    { s with elite_models := some elite_indices }
  else s

def eval_assert_msg : String :=
  "assert failed: model_in.ndim == 2 and target.ndim == 2"

/-- BNN.eval_score (BNN.py lines 251-271): asserts both tensors are rank 2,
then returns the unreduced elementwise squared error between the
disabled-propagation forward output and the target repeated num_members times
along a new model axis. -/
def eval_score (s : BNNState) (f : Nat → List ℚ → List ℚ)
    (model_in target : Tens) : Except String Tens :=
  match model_in, target with
  | .r2 x, .r2 tgt =>
    let pred := (default_forward s f (.r2 x) false).2.as3
    .ok (.r3 (mse_none3 pred (List.replicate s.num_members tgt)))
  | _, _ => .error eval_assert_msg

/-- The model indices the layers compute with inside an only_elite call: the
active list of the state after the first toggle of default_forward. -/
def active_after_toggle (s : BNNState) : List Nat :=
  activeModels (maybe_toggle_layers_use_only_elite s true)

/-- The spec wording of claim C4: the sum over the ensemble axis of the sum
over examples of the sum over output dimensions of the squared errors between
prediction and target. -/
def sse_direct (pred : List (List (List ℚ))) (target : List (List ℚ)) : ℚ :=
  (pred.map (fun pm =>
    (List.zipWith (fun pr tr => (List.zipWith (fun u v => sq (u - v)) pr tr).sum)
      pm target).sum)).sum

/-- The spec wording of claim C2: the mean of the per-unit KL divergences
across all Bayesian units. -/
def kl_mean_across_units (unit_kls : List ℚ) : ℚ :=
  unit_kls.sum / (unit_kls.length : ℚ)

/- ### Basic lemmas about the embedding -/

theorem maybe_toggle_false (s : BNNState) :
    maybe_toggle_layers_use_only_elite s false = s := by
  unfold maybe_toggle_layers_use_only_elite
  cases s.elite_models <;> simp

theorem default_forward_state_false (s : BNNState) (f : Nat → List ℚ → List ℚ)
    (x : Tens) : (default_forward s f x false).1 = s := by
  simp [default_forward, maybe_toggle_false]

theorem default_forward_val_false (s : BNNState) (f : Nat → List ℚ → List ℚ)
    (x : Tens) : (default_forward s f x false).2 = stack_forward (activeModels s) f x := by
  simp [default_forward, maybe_toggle_false]

theorem activeModels_of_flag_false (s : BNNState)
    (h : s.output_layer.use_only_elite = false) :
    activeModels s = List.range s.num_members := by
  simp [activeModels, h]

theorem zipWith_replicate_length {α β γ : Type} (g : α → β → γ) (l : List α) (b : β) :
    List.zipWith g l (List.replicate l.length b) = l.map (fun a => g a b) := by
  induction l with
  | nil => rfl
  | cons a tl ih => simp [List.replicate_succ, ih]

theorem zipWith_replicate_of_length {α β γ : Type} (g : α → β → γ) (l : List α)
    (b : β) (n : Nat) (h : l.length = n) :
    List.zipWith g l (List.replicate n b) = l.map (fun a => g a b) := by
  subst h; exact zipWith_replicate_length g l b

theorem foldl_add2_eq_sum (u v : Nat → ℚ) (n : Nat) (a : ℚ) :
    (List.range n).foldl (fun acc k => acc + u k + v k) a
      = a + ((List.range n).map (fun k => u k + v k)).sum := by
  induction n generalizing a with
  | zero => simp
  | succ m ih =>
    rw [List.range_succ, List.foldl_append, List.map_append]
    simp [ih]
    ring

theorem complexity_term_eq_sum (unit_kls : List ℚ) (w : ℚ) :
    complexity_term unit_kls w = unit_kls.sum * w := by
  simp [complexity_term, nn_kl_divergence, kl_divergence_from_nn, Tens.mean, Tens.elems]

theorem mse_loss_eq_sse_direct (s : BNNState) (f : Nat → List ℚ → List ℚ)
    (mi t : List (List ℚ)) :
    mse_loss s f mi t = sse_direct ((default_forward s f (.r2 mi) false).2.as3) t := by
  simp only [mse_loss, sse_direct, sum_dims12, mse_none3]
  rw [zipWith_replicate_length]
  simp [List.map_map, Function.comp_def, mse_none2, List.map_zipWith]

/- ### Concrete states used by the witnesses -/

/-- A two-member ensemble with no elites, no propagation, not frozen. -/
def sW : BNNState :=
  ⟨1, 1, 2, none, false, none, [], ⟨none, false, false⟩⟩

/-- A frozen one-member ensemble whose module freeze flags are false. -/
def sF : BNNState :=
  ⟨1, 1, 1, none, true, none, [⟨none, false, false⟩], ⟨none, false, false⟩⟩

/-- The ensemble of the spec example scenario: three members, input dim 5,
output dim 4, expectation propagation. -/
def sE : BNNState :=
  ⟨5, 4, 3, some "expectation", false, none, [], ⟨none, false, false⟩⟩

/-- The identity row map, used as a concrete weight draw. -/
def fId : Nat → Nat → List ℚ → List ℚ := fun _ _ v => v

/- ### Claims -/

/-- Claim C3: for every index sequence passed to set_elite, a call whose argument
length equals num_members is a no-op, and otherwise elite_models is replaced by
the given list. -/
theorem C3_set_elite_guard (s : BNNState) (elite_indices : List Nat) :
    (elite_indices.length = s.num_members → set_elite s elite_indices = s) ∧
    (elite_indices.length ≠ s.num_members →
      (set_elite s elite_indices).elite_models = some elite_indices) := by
  constructor
  · intro h; simp [set_elite, h]
  · intro h; simp [set_elite, h]

/-- Witness for C3 at a two-member state: a length-2 list is dropped, a length-1
list is stored. -/
theorem C3_set_elite_guard_witness :
    set_elite sW [0, 1] = sW ∧ (set_elite sW [0]).elite_models = some [0] :=
  ⟨(C3_set_elite_guard sW [0, 1]).1 rfl, (C3_set_elite_guard sW [0]).2 (by decide)⟩

/-- Claim C10: calling loss while the freeze flag is true re-invokes freeze_model,
so the state after the call has freeze set on the ensemble and on every contained
Bayesian module; module freeze flags that were false on entry are overwritten. -/
theorem C10_frozen_loss_side_effect (s : BNNState)
    (fseq : Nat → Nat → List ℚ → List ℚ) (klseq : Nat → List ℚ)
    (mi t : List (List ℚ)) (h : s.freeze = true) :
    (lossBNN s fseq klseq mi t).2 = freeze_model s ∧
    (lossBNN s fseq klseq mi t).2.freeze = true ∧
    (lossBNN s fseq klseq mi t).2.output_layer.freeze = true ∧
    (lossBNN s fseq klseq mi t).2.hidden_layers.map (fun l => l.freeze)
      = List.replicate s.hidden_layers.length true := by
  refine ⟨?_, ?_, ?_, ?_⟩ <;>
    simp [lossBNN, h, freeze_model, List.map_map, Function.comp_def, List.map_const]

/-- Witness for C10: a frozen state whose output layer module flag is false on
entry has it overwritten to true by a loss call. -/
theorem C10_frozen_loss_side_effect_witness :
    sF.output_layer.freeze = false ∧
    (lossBNN sF fId (fun _ => []) [] []).2.output_layer.freeze = true :=
  ⟨rfl, (C10_frozen_loss_side_effect sF fId (fun _ => []) [] [] rfl).2.2.1⟩

/-- Claim C2 counterexample: with two Bayesian units of KL divergence 1 and 3 and
weight 1, the per-iteration complexity term the code computes is 4, the weighted
sum, and not the mean across units (which is 2) that the claim states. -/
theorem C2_mean_claim_counterexample :
    complexity_term [1, 3] 1 ≠ 1 * kl_mean_across_units [1, 3] := by
  norm_num [complexity_term, nn_kl_divergence, kl_divergence_from_nn, Tens.mean,
    Tens.elems, kl_mean_across_units]

/-- Claim C2 amended: in the unfrozen variational objective each of the sample_nbr
Monte-Carlo iterations adds a complexity term equal to complexity_cost_weight
times the SUM of the per-unit KL divergences: the aggregation sums per-unit KL
into a single 0-dim scalar, and the tensor mean applied to that scalar is the
identity, so no division by the unit count happens. -/
theorem C2_complexity_is_weighted_sum (s : BNNState)
    (fseq : Nat → Nat → List ℚ → List ℚ) (klseq : Nat → List ℚ)
    (inputs labels : List (List ℚ)) (n : Nat) (w : ℚ) :
    sample_elbo s fseq klseq inputs labels n w
      = ((List.range n).map
          (fun k => mse_loss s (fseq k) inputs labels + (klseq k).sum * w)).sum
        / (n : ℚ) := by
  unfold sample_elbo
  rw [foldl_add2_eq_sum (fun k => mse_loss s (fseq k) inputs labels)
    (fun k => complexity_term (klseq k) w)]
  simp [complexity_term_eq_sum]

/-- Claim C5: with freeze unset, loss returns the arithmetic mean over the default
sample_nbr = 100 Monte-Carlo iterations of the per-iteration sum of the
sum-of-squares term of iteration k (computed from the fresh weight draw fseq k)
plus the weighted complexity term. -/
theorem C5_unfrozen_loss_mc_mean (s : BNNState)
    (fseq : Nat → Nat → List ℚ → List ℚ) (klseq : Nat → List ℚ)
    (mi t : List (List ℚ)) (h : s.freeze = false) :
    (lossBNN s fseq klseq mi t).1
      = ((List.range 100).map
          (fun k => mse_loss s (fseq k) mi t + complexity_term (klseq k) 1)).sum
        / (100 : ℚ) := by
  unfold lossBNN
  rw [if_neg (by simp [h])]
  unfold sample_elbo
  rw [foldl_add2_eq_sum (fun k => mse_loss s (fseq k) mi t)
    (fun k => complexity_term (klseq k) 1)]
  norm_num

/-- Witness for C5 at a concrete unfrozen state. -/
theorem C5_unfrozen_loss_mc_mean_witness :
    (lossBNN sW fId (fun _ => [1]) [[1]] [[0]]).1
      = ((List.range 100).map
          (fun k => mse_loss sW (fId k) [[1]] [[0]] + complexity_term [1] 1)).sum
        / (100 : ℚ) :=
  C5_unfrozen_loss_mc_mean sW fId (fun _ => [1]) [[1]] [[0]] rfl

/-- Claim C4: with the freeze flag set, loss returns exactly the sum of squared
errors between the disabled-propagation forward output of the re-frozen model
(one single pass, weight draw fseq 0, no Monte-Carlo loop) and the target, summed
over the output-dimension and batch axes and then over the ensemble axis. -/
theorem C4_frozen_loss_sse (s : BNNState)
    (fseq : Nat → Nat → List ℚ → List ℚ) (klseq : Nat → List ℚ)
    (mi t : List (List ℚ)) (h : s.freeze = true) :
    (lossBNN s fseq klseq mi t).1
      = sse_direct ((default_forward (freeze_model s) (fseq 0) (.r2 mi) false).2.as3) t := by
  unfold lossBNN
  rw [if_pos h]
  exact mse_loss_eq_sse_direct _ _ _ _

/-- Witness for C4 at a concrete frozen state. -/
theorem C4_frozen_loss_sse_witness :
    (lossBNN sF fId (fun _ => []) [[1]] [[0]]).1
      = sse_direct ((default_forward (freeze_model sF) (fId 0) (.r2 [[1]]) false).2.as3)
          [[0]] :=
  C4_frozen_loss_sse sF fId (fun _ => []) [[1]] [[0]] rfl

/-- Claim C6: for the partitioning propagation methods, a rank-2 input whose batch
size is not a multiple of the active model count makes forward_ensemble return
the batch-multiple configuration error: the result does not depend on the weight
draw f (no layer computation happens) and the returned state is the entry state
unchanged. -/
theorem C6_batch_multiple_error (s : BNNState) (f : Nat → List ℚ → List ℚ)
    (rows : List (List ℚ)) (pidx : Option (List Nat)) (rperm : List Nat)
    (pm : String) (hpm : s.propagation_method = some pm)
    (hmem : pm = "random_model" ∨ pm = "fixed_model" ∨ pm = "expectation")
    (hmod : rows.length % model_len s ≠ 0) :
    forward_ensemble s f (.r2 rows) pidx rperm = (s, .error batch_multiple_msg) := by
  unfold forward_ensemble
  rw [hpm]
  simp [hmod]

/-- Witness for C6: a batch of 1 with 3 active models errors out. -/
theorem C6_batch_multiple_error_witness :
    forward_ensemble sE (fId 0) (.r2 [[1]]) none [] = (sE, .error batch_multiple_msg) :=
  C6_batch_multiple_error sE (fId 0) [[1]] none [] "expectation" rfl
    (Or.inr (Or.inr rfl)) (by decide)

/-- Flags are restored by a double toggle. -/
theorem maybe_toggle_twice_flags (s : BNNState) (oe : Bool) :
    (maybe_toggle_layers_use_only_elite
        (maybe_toggle_layers_use_only_elite s oe) oe).output_layer.use_only_elite
      = s.output_layer.use_only_elite ∧
    (maybe_toggle_layers_use_only_elite
        (maybe_toggle_layers_use_only_elite s oe) oe).hidden_layers.map
          (fun l => l.use_only_elite)
      = s.hidden_layers.map (fun l => l.use_only_elite) := by
  by_cases hc : 1 < s.num_members ∧ oe = true
  · cases h : s.elite_models with
    | none => simp [maybe_toggle_layers_use_only_elite, h]
    | some es =>
      simp [maybe_toggle_layers_use_only_elite, h, hc, LayerState.set_elite,
        LayerState.toggle_use_only_elite, List.map_map, Function.comp]
  · cases h : s.elite_models with
    | none => simp [maybe_toggle_layers_use_only_elite, h]
    | some es => simp [maybe_toggle_layers_use_only_elite, h, hc]

/-- Claim C9: every default forward pass leaves each layer use_only_elite flag at
its entry value; its state effect is exactly one toggle invocation before and one
after the layer stack, and the toggle invocation is a no-op whenever elite_models
is unset or num_members is 1. -/
theorem C9_toggle_discipline (s : BNNState) (f : Nat → List ℚ → List ℚ)
    (x : Tens) (oe : Bool) :
    (default_forward s f x oe).1
        = maybe_toggle_layers_use_only_elite
            (maybe_toggle_layers_use_only_elite s oe) oe ∧
    (default_forward s f x oe).1.output_layer.use_only_elite
        = s.output_layer.use_only_elite ∧
    (default_forward s f x oe).1.hidden_layers.map (fun l => l.use_only_elite)
        = s.hidden_layers.map (fun l => l.use_only_elite) ∧
    (s.elite_models = none → maybe_toggle_layers_use_only_elite s oe = s) ∧
    (s.num_members = 1 → maybe_toggle_layers_use_only_elite s oe = s) := by
  refine ⟨rfl, (maybe_toggle_twice_flags s oe).1, (maybe_toggle_twice_flags s oe).2,
    ?_, ?_⟩
  · intro h
    simp [maybe_toggle_layers_use_only_elite, h]
  · intro h
    cases he : s.elite_models with
    | none => simp [maybe_toggle_layers_use_only_elite, he]
    | some es => simp [maybe_toggle_layers_use_only_elite, he, h]

/-- Witness for C9: flag preservation at a concrete state, and the no-op of the
toggle when elite_models is unset. -/
theorem C9_toggle_discipline_witness :
    (default_forward sW (fId 0) (.r2 []) true).1.output_layer.use_only_elite
        = sW.output_layer.use_only_elite ∧
    maybe_toggle_layers_use_only_elite sW true = sW :=
  ⟨(C9_toggle_discipline sW (fId 0) (.r2 []) true).2.1,
   (C9_toggle_discipline sW (fId 0) (.r2 []) true).2.2.2.1 rfl⟩

/- ### Index-level helpers -/

theorem getD_map_of_lt {α β : Type} (g : α → β) (l : List α) (j : Nat)
    (hj : j < l.length) (d : β) (d0 : α) :
    (l.map g).getD j d = g (l.getD j d0) := by
  rw [List.getD_eq_getElem _ _ (by simpa using hj), List.getElem_map,
    List.getD_eq_getElem _ _ hj]

theorem headD_eq_getD_zero {α : Type} (l : List α) (d : α) (h : 0 < l.length) :
    l.headD d = l.getD 0 d := by
  cases l with
  | nil => simp at h
  | cons a t => rfl

/- ### Claim C8 -/

/-- Claim C8: eval_score raises the assertion error whenever either argument is
not rank 2 (in particular on rank-3 input); on two rank-2 arguments it returns
the fully unreduced elementwise squared error between the disabled-propagation
forward output of each of the num_members models and the target replicated
across the ensemble axis. -/
theorem C8_eval_score_unreduced (s : BNNState) (f : Nat → List ℚ → List ℚ)
    (hflag : s.output_layer.use_only_elite = false) :
    (∀ model_in target : Tens, ¬(model_in.ndim = 2 ∧ target.ndim = 2) →
        eval_score s f model_in target = .error eval_assert_msg) ∧
    (∀ x tgt : List (List ℚ),
        eval_score s f (.r2 x) (.r2 tgt)
          = .ok (.r3 ((List.range s.num_members).map (fun m =>
              List.zipWith (fun pr tr => List.zipWith (fun u v => sq (u - v)) pr tr)
                (x.map (f m)) tgt)))) := by
  constructor
  · intro mi tg h
    cases mi <;> cases tg <;> first
      | rfl
      | exact absurd ⟨rfl, rfl⟩ h
  · intro x tgt
    have hdf : (default_forward s f (.r2 x) false).2.as3
        = (List.range s.num_members).map (fun m => x.map (f m)) := by
      rw [default_forward_val_false, activeModels_of_flag_false s hflag]
      rfl
    have hlen : ((List.range s.num_members).map (fun m => x.map (f m))).length
        = s.num_members := by simp
    simp only [eval_score, hdf, mse_none3]
    rw [zipWith_replicate_of_length _ _ _ _ hlen]
    simp [List.map_map, Function.comp_def, mse_none2]

/-- Witness for C8: a rank-3 input errors; a rank-2 pair yields the unreduced
per-model squared errors. -/
theorem C8_eval_score_unreduced_witness :
    eval_score sW (fId 0) (.r3 []) (.r2 []) = .error eval_assert_msg ∧
    eval_score sW (fId 0) (.r2 [[1]]) (.r2 [[0]])
      = .ok (.r3 ((List.range 2).map (fun m =>
          List.zipWith (fun pr tr => List.zipWith (fun u v => sq (u - v)) pr tr)
            ([[1]].map (fId 0 m)) [[0]]))) :=
  ⟨(C8_eval_score_unreduced sW (fId 0) rfl).1 (.r3 []) (.r2 []) (by decide),
   (C8_eval_score_unreduced sW (fId 0) rfl).2 [[1]] [[0]]⟩

/- ### The active model list of an elite-restricted pass -/

theorem active_after_toggle_none (s : BNNState) (h : s.elite_models = none)
    (hflag : s.output_layer.use_only_elite = false) :
    active_after_toggle s = List.range s.num_members := by
  simp [active_after_toggle, maybe_toggle_layers_use_only_elite, h, activeModels, hflag]

theorem active_after_toggle_some (s : BNNState) (es : List Nat)
    (h : s.elite_models = some es) (hE : 1 < s.num_members)
    (hflag : s.output_layer.use_only_elite = false) :
    active_after_toggle s = es := by
  simp [active_after_toggle, maybe_toggle_layers_use_only_elite, h, hE, activeModels,
    LayerState.set_elite, LayerState.toggle_use_only_elite, hflag]

theorem active_after_toggle_length (s : BNNState)
    (hconf : s.elite_models = none ∨ 1 < s.num_members)
    (hflag : s.output_layer.use_only_elite = false) :
    (active_after_toggle s).length = model_len s := by
  cases he : s.elite_models with
  | none => rw [active_after_toggle_none s he hflag]; simp [model_len, he]
  | some es =>
    rcases hconf with h | h
    · simp [he] at h
    · rw [active_after_toggle_some s es he h hflag]; simp [model_len, he]

/- ### Claim C7 -/

/-- Claim C7: with propagation_method expectation and a rank-2 batch whose size is
a multiple of the active model count, forward broadcasts the full batch to every
active model and returns the mean over the model axis: row j, column d of the
output is the average over the active models m of component d of f m applied to
input row j, giving a (batch, out_size) result. -/
theorem C7_expectation_mean (s : BNNState) (f : Nat → List ℚ → List ℚ)
    (rows : List (List ℚ)) (pidx : Option (List Nat)) (rperm : List Nat)
    (hpm : s.propagation_method = some "expectation")
    (hflag : s.output_layer.use_only_elite = false)
    (hconf : s.elite_models = none ∨ 1 < s.num_members)
    (hmul : rows.length % model_len s = 0)
    (hM : 1 ≤ model_len s)
    (hf : ∀ m v, (f m v).length = s.out_size) :
    (forward_ensemble s f (.r2 rows) pidx rperm).2
      = .ok (.r2 ((List.range rows.length).map (fun j =>
          (List.range s.out_size).map (fun d =>
            ((active_after_toggle s).map
                (fun m => (f m (rows.getD j [])).getD d 0)).sum
              / (model_len s : ℚ))))) := by
  have hact : (active_after_toggle s).length = model_len s :=
    active_after_toggle_length s hconf hflag
  have hact0 : 0 < (active_after_toggle s).length := by rw [hact]; exact hM
  have hdf : (default_forward s f (.r3 [rows]) true).2
      = .r3 ((active_after_toggle s).map (fun m => rows.map (f m))) := by
    show stack_forward (active_after_toggle s) f (.r3 [rows]) = _
    simp [stack_forward]
  have hred : (forward_ensemble s f (.r2 rows) pidx rperm).2
      = .ok (mean_dim0 (.r3 ((active_after_toggle s).map (fun m => rows.map (f m))))) := by
    unfold forward_ensemble
    rw [hpm]
    simp only [hmul, ne_eq, not_true_eq_false, if_false, ite_false, ite_true,
      not_false_eq_true, if_neg, reduceIte]
    rw [hdf, if_neg (by decide), if_neg (by decide)]
  rw [hred]
  congr 1
  have hhead : ((active_after_toggle s).map (fun m => rows.map (f m))).headD []
      = rows.map (f ((active_after_toggle s).getD 0 0)) := by
    rw [headD_eq_getD_zero _ _ (by simpa using hact0),
      getD_map_of_lt _ _ _ hact0 _ 0]
  simp only [mean_dim0]
  rw [hhead]
  simp only [List.length_map]
  congr 1
  apply List.map_congr_left
  intro j hj
  have hjlt : j < rows.length := List.mem_range.mp hj
  rw [getD_map_of_lt _ _ _ hjlt _ [], hf]
  apply List.map_congr_left
  intro d _
  have hinner : (List.map (fun m => List.map (f m) rows) (active_after_toggle s)).map
      (fun sl => (sl.getD j []).getD d 0)
      = (active_after_toggle s).map (fun m => (f m (rows.getD j [])).getD d 0) := by
    rw [List.map_map]
    apply List.map_congr_left
    intro m _
    show ((rows.map (f m)).getD j []).getD d 0 = (f m (rows.getD j [])).getD d 0
    rw [getD_map_of_lt _ _ _ hjlt _ []]
  rw [hinner, hact]

/-- A concrete weight draw of output width 4: model m maps every row to four
copies of m. -/
def f4 : Nat → List ℚ → List ℚ := fun m _ => [(m : ℚ), (m : ℚ), (m : ℚ), (m : ℚ)]

/-- The (3, 5) batch of the spec example scenario. -/
def rows5 : List (List ℚ) :=
  [[0, 0, 0, 0, 0], [1, 0, 0, 0, 0], [2, 0, 0, 0, 0]]

/-- Witness for C7: the spec scenario E = 3, input dim 5, output dim 4, batch 3
yields a 3-row, 4-column output. -/
theorem C7_expectation_mean_witness :
    (forward_ensemble sE f4 (.r2 rows5) none []).2
      = .ok (.r2 ((List.range 3).map (fun j =>
          (List.range 4).map (fun d =>
            ((active_after_toggle sE).map
                (fun m => (f4 m (rows5.getD j [])).getD d 0)).sum
              / (model_len sE : ℚ))))) :=
  C7_expectation_mean sE f4 rows5 none [] rfl rfl (Or.inl rfl) (by decide) (by decide)
    (fun _ _ => rfl)

/- ### The scatter write pred[indices] = pred.clone() -/

theorem scatter_assign_not_mem {α : Type} (ps : List Nat) (vs : List α)
    (init : List α) (p : Nat) (hp : p ∉ ps) (d : α) :
    (scatter_assign ps vs init).getD p d = init.getD p d := by
  induction ps generalizing vs init with
  | nil => simp [scatter_assign]
  | cons q qs ih =>
    cases vs with
    | nil => simp [scatter_assign, List.zip_nil_right]
    | cons v vs2 =>
      have hstep : scatter_assign (q :: qs) (v :: vs2) init
          = scatter_assign qs vs2 (init.set q v) := rfl
      have hqp : q ≠ p := by
        intro h
        apply hp
        rw [← h]
        exact List.mem_cons_self q qs
      rw [hstep, ih vs2 (init.set q v) (fun h => hp (List.mem_cons_of_mem _ h))]
      rw [List.getD_eq_getElem?_getD, List.getD_eq_getElem?_getD,
        List.getElem?_set_ne hqp]

theorem scatter_assign_getD {α : Type} (ps : List Nat) (vs : List α)
    (init : List α) (hnd : ps.Nodup) (hb : ∀ p ∈ ps, p < init.length)
    (k : Nat) (hk : k < ps.length) (hkv : k < vs.length) (d : α) :
    (scatter_assign ps vs init).getD (ps.getD k 0) d = vs.getD k d := by
  induction ps generalizing vs init k with
  | nil => simp at hk
  | cons q qs ih =>
    cases vs with
    | nil => simp at hkv
    | cons v vs2 =>
      have hstep : scatter_assign (q :: qs) (v :: vs2) init
          = scatter_assign qs vs2 (init.set q v) := rfl
      rw [hstep]
      cases k with
      | zero =>
        have hq : q ∉ qs := (List.nodup_cons.mp hnd).1
        rw [List.getD_cons_zero, List.getD_cons_zero,
          scatter_assign_not_mem qs vs2 _ q hq]
        rw [List.getD_eq_getElem?_getD,
          List.getElem?_set_self (hb q (List.mem_cons_self q qs))]
        rfl
      | succ k2 =>
        rw [List.getD_cons_succ, List.getD_cons_succ]
        apply ih
        · exact (List.nodup_cons.mp hnd).2
        · intro p hp
          rw [List.length_set]
          exact hb p (List.mem_cons_of_mem _ hp)
        · exact Nat.lt_of_succ_lt_succ hk
        · exact Nat.lt_of_succ_lt_succ hkv

/- ### The two torch views of _forward_from_indices -/

theorem view2_length (batch per : Nat) (c : List (List (List ℚ))) :
    (view2 batch per c).length = batch := by simp [view2]

theorem view2_getD (batch per : Nat) (c : List (List (List ℚ))) (i : Nat)
    (hi : i < batch) :
    (view2 batch per c).getD i [] = (c.getD (i / per) []).getD (i % per) [] := by
  unfold view2
  rw [List.getD_eq_getElem _ _ (by simpa using hi), List.getElem_map,
    List.getElem_range]

theorem view3_length (m per : Nat) (rs : List (List ℚ)) :
    (view3 m per rs).length = m := by simp [view3]

theorem view3_getD (m per : Nat) (rs : List (List ℚ)) (k : Nat) (hk : k < m) :
    (view3 m per rs).getD k []
      = (List.range per).map (fun j => rs.getD (k * per + j) []) := by
  unfold view3
  rw [List.getD_eq_getElem _ _ (by simpa using hk), List.getElem_map,
    List.getElem_range]

/- ### Per-slice behavior of the layer stack on a rank-3 batch -/

theorem stack_forward_r3_getD (act : List Nat) (f : Nat → List ℚ → List ℚ)
    (c : List (List (List ℚ))) (hlen : act.length = c.length)
    (k : Nat) (hk : k < c.length) :
    (stack_forward act f (.r3 c)).as3.getD k []
      = (c.getD k []).map (f (act.getD k 0)) := by
  simp only [stack_forward]
  by_cases h1 : c.length = 1
  · rw [if_pos h1]
    have hk0 : k = 0 := Nat.lt_one_iff.mp (h1 ▸ hk)
    subst hk0
    have hact0 : 0 < act.length := by rw [hlen, h1]; exact Nat.one_pos
    show ((act.map (fun m => (c.headD []).map (f m))).getD 0 [])
        = (c.getD 0 []).map (f (act.getD 0 0))
    rw [getD_map_of_lt _ _ _ hact0 _ 0,
      headD_eq_getD_zero _ _ (by rw [h1]; exact Nat.one_pos)]
  · rw [if_neg h1]
    have hziplen : k < ((act.zip c).map (fun p => p.2.map (f p.1))).length := by
      simp [List.length_zip, hlen]
      exact hk
    show (((act.zip c).map (fun p => p.2.map (f p.1))).getD k [])
        = (c.getD k []).map (f (act.getD k 0))
    rw [List.getD_eq_getElem _ _ hziplen, List.getElem_map, List.getElem_zip]
    rw [List.getD_eq_getElem _ _ hk, List.getD_eq_getElem _ _ (by rw [hlen]; exact hk)]

/- ### Claim C1 -/

/-- The second component of _forward_from_indices, written out. -/
theorem forward_from_indices_snd (s : BNNState) (f : Nat → List ℚ → List ℚ)
    (rows : List (List ℚ)) (idx : List Nat) :
    (forward_from_indices s f rows idx).2
      = scatter_assign idx
          (view2 rows.length (rows.length / model_len s)
            ((default_forward s f (.r3 (view3 (model_len s)
              (rows.length / model_len s)
              (idx.map (fun p => rows.getD p [])))) true).2).as3)
          (view2 rows.length (rows.length / model_len s)
            ((default_forward s f (.r3 (view3 (model_len s)
              (rows.length / model_len s)
              (idx.map (fun p => rows.getD p [])))) true).2).as3) := rfl

/-- Row i of the (still shuffled) prediction of _forward_from_indices is the
model of slot i applied to the input row the shuffle placed in slot i. -/
theorem forward_from_indices_pred_getD (s : BNNState) (f : Nat → List ℚ → List ℚ)
    (rows : List (List ℚ)) (idx : List Nat)
    (hflag : s.output_layer.use_only_elite = false)
    (hconf : s.elite_models = none ∨ 1 < s.num_members)
    (hlen : idx.length = rows.length)
    (hdvd : model_len s ∣ rows.length) (hM : 1 ≤ model_len s)
    (hB : 0 < rows.length) (i : Nat) (hi : i < rows.length) :
    (view2 rows.length (rows.length / model_len s)
        ((default_forward s f (.r3 (view3 (model_len s)
          (rows.length / model_len s)
          (idx.map (fun p => rows.getD p [])))) true).2).as3).getD i []
      = f ((active_after_toggle s).getD (i / (rows.length / model_len s)) 0)
          (rows.getD (idx.getD i 0) []) := by
  have hP : 0 < rows.length / model_len s := Nat.div_pos (Nat.le_of_dvd hB hdvd) hM
  have hact : (active_after_toggle s).length = model_len s :=
    active_after_toggle_length s hconf hflag
  have hMP : model_len s * (rows.length / model_len s) = rows.length :=
    Nat.mul_div_cancel' hdvd
  have hkM : i / (rows.length / model_len s) < model_len s := by
    rw [Nat.div_lt_iff_lt_mul hP, hMP]
    exact hi
  have hmod : i % (rows.length / model_len s) < rows.length / model_len s :=
    Nat.mod_lt i hP
  have hix : i / (rows.length / model_len s) * (rows.length / model_len s)
      + i % (rows.length / model_len s) = i := by
    rw [mul_comm]
    exact Nat.div_add_mod i (rows.length / model_len s)
  show (view2 rows.length (rows.length / model_len s)
      (stack_forward (active_after_toggle s) f (.r3 (view3 (model_len s)
        (rows.length / model_len s)
        (idx.map (fun p => rows.getD p []))))).as3).getD i [] = _
  rw [view2_getD _ _ _ i hi]
  rw [stack_forward_r3_getD (active_after_toggle s) f _
    (by rw [hact, view3_length]) _ (by rw [view3_length]; exact hkM)]
  rw [view3_getD _ _ _ _ hkM]
  rw [getD_map_of_lt
    (f ((active_after_toggle s).getD (i / (rows.length / model_len s)) 0))
    ((List.range (rows.length / model_len s)).map
      (fun j => (idx.map (fun p => rows.getD p [])).getD
        (i / (rows.length / model_len s) * (rows.length / model_len s) + j) []))
    (i % (rows.length / model_len s)) (by simpa using hmod) [] []]
  rw [getD_map_of_lt
    (fun j => (idx.map (fun p => rows.getD p [])).getD
      (i / (rows.length / model_len s) * (rows.length / model_len s) + j) [])
    (List.range (rows.length / model_len s))
    (i % (rows.length / model_len s)) (by simpa using hmod) [] 0]
  rw [List.getD_eq_getElem (List.range (rows.length / model_len s)) 0
    (by simpa using hmod), List.getElem_range]
  rw [hix]
  rw [getD_map_of_lt (fun p => rows.getD p []) idx i (by rw [hlen]; exact hi) [] 0]

/-- Claim C1: for every ensemble configuration with M = model_len active models
(M dividing the batch size) and every permutation idx of the batch positions,
the random_model / fixed_model path _forward_from_indices is a round trip: the
output row at position idx[k] is the per-model forward of slot k applied to the
input row at position idx[k]; consequently every input row i receives as output
row i a prediction computed from input row i itself by one of the active
models. -/
theorem C1_shuffle_round_trip (s : BNNState) (f : Nat → List ℚ → List ℚ)
    (rows : List (List ℚ)) (idx : List Nat)
    (hflag : s.output_layer.use_only_elite = false)
    (hconf : s.elite_models = none ∨ 1 < s.num_members)
    (hperm : idx.Perm (List.range rows.length))
    (hdvd : model_len s ∣ rows.length) (hM : 1 ≤ model_len s) :
    (∀ k, k < rows.length →
        ((forward_from_indices s f rows idx).2).getD (idx.getD k 0) []
          = f ((active_after_toggle s).getD (k / (rows.length / model_len s)) 0)
              (rows.getD (idx.getD k 0) [])) ∧
    (∀ i, i < rows.length →
        ∃ k, k < rows.length ∧ idx.getD k 0 = i ∧
          ((forward_from_indices s f rows idx).2).getD i []
            = f ((active_after_toggle s).getD (k / (rows.length / model_len s)) 0)
                (rows.getD i [])) := by
  have hlen : idx.length = rows.length := by simpa using hperm.length_eq
  have hnd : idx.Nodup := (hperm.nodup_iff).mpr (List.nodup_range rows.length)
  have hmem : ∀ p ∈ idx, p < rows.length := fun p hp =>
    List.mem_range.mp ((hperm.mem_iff).mp hp)
  have main : ∀ k, k < rows.length →
      ((forward_from_indices s f rows idx).2).getD (idx.getD k 0) []
        = f ((active_after_toggle s).getD (k / (rows.length / model_len s)) 0)
            (rows.getD (idx.getD k 0) []) := by
    intro k hk
    have hB : 0 < rows.length := Nat.zero_lt_of_lt hk
    rw [forward_from_indices_snd]
    rw [scatter_assign_getD idx _ _ hnd
      (fun p hp => by rw [view2_length]; exact hmem p hp)
      k (by rw [hlen]; exact hk) (by rw [view2_length]; exact hk) []]
    exact forward_from_indices_pred_getD s f rows idx hflag hconf hlen hdvd hM hB k hk
  refine ⟨main, ?_⟩
  intro i hi
  have hmem2 : i ∈ idx := (hperm.mem_iff).mpr (List.mem_range.mpr hi)
  obtain ⟨k, hk, hgk⟩ := List.getElem_of_mem hmem2
  have hkd : idx.getD k 0 = i := by
    rw [List.getD_eq_getElem _ _ hk]; exact hgk
  refine ⟨k, hlen ▸ hk, hkd, ?_⟩
  have h2 := main k (hlen ▸ hk)
  rw [hkd] at h2
  exact h2

/-- A concrete (2, 1) batch. -/
def rows2 : List (List ℚ) := [[1], [2]]

/-- A concrete shuffle permutation of two positions. -/
def idx2 : List Nat := [1, 0]

/-- Witness for C1 on a two-member ensemble with batch 2 and the swap
permutation, at slot k = 0. -/
theorem C1_shuffle_round_trip_witness :
    ((forward_from_indices sW (fId 0) rows2 idx2).2).getD (idx2.getD 0 0) []
      = fId 0 ((active_after_toggle sW).getD (0 / (rows2.length / model_len sW)) 0)
          (rows2.getD (idx2.getD 0 0) []) :=
  (C1_shuffle_round_trip sW (fId 0) rows2 idx2 rfl (Or.inl rfl) (by decide)
    (by decide) (by decide)).1 0 (by decide)

end BNNModel
